import Mathlib

/-!
# Verification of `hummingbot/core/utils/exchange_rate_conversion.py`

This file gives a shallow embedding of the `ExchangeRateConversion` class and
proves (or refutes) the frozen claims about it.

Modelling conventions:
* Python `float` values are modelled by `PFloat`: either an exact rational
  number or `NaN`.  The conversion-rate arithmetic of the source only uses
  multiplication, division and the `math.isnan` test, all of which are
  modelled faithfully (NaN is absorbing, division by zero raises).
* Python `dict` is modelled by an association list with Python's insertion
  semantics: inserting an existing key updates the value in place (keeping
  the key's position), inserting a new key appends it at the end.  Dict
  comprehensions and `{**a, **b}` merges are modelled as sequential inserts.
* The mutable class-level state of `ExchangeRateConversion` is an explicit
  `ErcState` record; methods become functions from state (and arguments) to
  results / updated states.  Python exceptions become `Except` errors.
* `logger().network(...)` / `logger().warning(...)` calls that the claims
  talk about are modelled as emitted `LogEvent` values.
* The asynchronous machinery (`asyncio` tasks, timeouts, `start`/`stop`)
  only matters to the claims through the outcome "did feed `f` become ready
  within the timeout", which is modelled by a boolean oracle.
-/

set_option autoImplicit false

namespace Erc

/-- Model of a Python `float`: an exact rational or NaN.  (`float("nan")`
is the only non-finite value the source manipulates.) -/
inductive PFloat where
  | num (q : ℚ)
  | nan
deriving DecidableEq, Repr

/-- Python `math.isnan`. -/
def PFloat.isNan : PFloat → Bool
  | .nan => true
  | .num _ => false

/-- Python float multiplication (NaN absorbing). -/
def PFloat.mul : PFloat → PFloat → PFloat
  | .num a, .num b => .num (a * b)
  | _, _ => .nan

/-- Python truthiness of `data_feed.get_price(...)`'s result: `None` and
`0.0` are falsy; every other float, NaN included, is truthy. -/
def pyTruthy : Option PFloat → Bool
  | none => false
  | some .nan => true
  | some (.num q) => q != 0

/-- Python `str.upper()` (ASCII range; asset symbols are ASCII).  Defined
by structural recursion on the character list so that it evaluates inside
the kernel. -/
def pyUpper (s : String) : String := ⟨s.data.map Char.toUpper⟩

/-- Python `str.lower()` (ASCII range). -/
def pyLower (s : String) : String := ⟨s.data.map Char.toLower⟩

/-- A Python `dict` with `String` keys, as an insertion-ordered
association list. -/
abbrev PyDict (α : Type) := List (String × α)

/-- Lookup `d[k]` / `d.get(k)`: first (and, for genuine dicts, only) binding. -/
def pyGet {α : Type} : PyDict α → String → Option α
  | [], _ => none
  | (k', v) :: t, k => if k' = k then some v else pyGet t k

/-- Assignment `d[k] = v` with Python semantics: update in place if present, else
append. -/
def pyInsert {α : Type} : PyDict α → String → α → PyDict α
  | [], k, v => [(k, v)]
  | (k', v') :: t, k, v => if k' = k then (k', v) :: t else (k', v') :: pyInsert t k v

/-- Build a dict from a list of pairs by sequential insertion (the
semantics of a dict comprehension / dict literal: later duplicates win). -/
def pyDictOf {α : Type} (l : List (String × α)) : PyDict α :=
  l.foldl (fun d kv => pyInsert d kv.1 kv.2) []

/-- Merge `{**a, **b}`: start from `a`, insert every binding of `b` in order. -/
def pyMerge {α : Type} (a b : PyDict α) : PyDict α :=
  b.foldl (fun d kv => pyInsert d kv.1 kv.2) a

/-- Comprehension `{k.upper(): v for k, v in d.items()}`. -/
def upperKeys {α : Type} (d : PyDict α) : PyDict α :=
  pyDictOf (d.map fun kv => (pyUpper kv.1, kv.2))

/-- One `{"default": ..., "source": ...}` entry of the exchange-rate
config (well-typed form: the default is a float, per the spec's
configuration-input contract). -/
structure SourceConfig where
  default : PFloat
  source : String
deriving DecidableEq, Repr

/-- The two mappings of `_exchange_rate_config`. -/
structure EffConfig where
  conversionRequired : PyDict SourceConfig
  globalConfig : PyDict SourceConfig
deriving DecidableEq, Repr

/-- A data feed, reduced to what `update_exchange_rates_from_data_feeds`
reads from it: its `name` and its current `price_dict`. -/
structure DataFeed where
  name : String
  priceDict : PyDict PFloat
deriving DecidableEq, Repr

/-- Python `data_feed.get_price(asset)`: single-asset lookup in the feed's
price dictionary (`None` when absent). -/
def DataFeed.get_price (f : DataFeed) (a : String) : Option PFloat :=
  pyGet f.priceDict a

/-- The mutable state of `ExchangeRateConversion` that the claims are
about. -/
structure ErcState where
  conversionRequired : PyDict SourceConfig
  globalConfig : PyDict SourceConfig
  /-- Field `_exchange_rate`, the merged rate table. -/
  exchangeRate : PyDict PFloat
  /-- Field `_all_data_feed_exchange_rate`, per-feed snapshots. -/
  allDataFeedExchangeRate : PyDict (PyDict PFloat)
  dataFeeds : List DataFeed
  /-- Flag `_show_update_exchange_rates_from_data_feeds_errors`. -/
  showUpdateErrors : Bool
  /-- Flag `_show_wait_till_ready_errors`. -/
  showWaitErrors : Bool
deriving Repr

/-- The exceptions the modelled methods can raise. -/
inductive ErcErr where
  /-- Python `Exception("Source name for exchange rate is not valid.")`. -/
  | invalidSource
  /-- Python `Exception("Data feed name not valid.")`. -/
  | dataFeedNameNotValid
  /-- Python `ValueError(f"Unable to convert '{fc}' to '{tc}'. Aborting.")` -/
  | conversionError (fc tc : String)
  /-- Python `KeyError` from `exchange_rate[asset_name]` in `adjust_token_rate`. -/
  | keyError (k : String)
  /-- Python `ZeroDivisionError` from `... / to_currency_usd_rate`. -/
  | zeroDivision
deriving DecidableEq, Repr

instance {ε α : Type} [DecidableEq ε] [DecidableEq α] :
    DecidableEq (Except ε α) := fun x y =>
  match x, y with
  | .ok a, .ok b =>
    if h : a = b then isTrue (by rw [h]) else isFalse (by intro he; cases he; exact h rfl)
  | .error a, .error b =>
    if h : a = b then isTrue (by rw [h]) else isFalse (by intro he; cases he; exact h rfl)
  | .ok _, .error _ => isFalse (by intro he; cases he)
  | .error _, .ok _ => isFalse (by intro he; cases he)

/-- Python float division as used on line 176: the divisor `0.0` raises
`ZeroDivisionError`, otherwise NaN is absorbing. -/
def PFloat.divRes : PFloat → PFloat → Except ErcErr PFloat
  | _, .num 0 => .error .zeroDivision
  | .num a, .num b => .ok (.num (a / b))
  | _, _ => .ok .nan

/-- Constant `DEFAULT_DATA_FEED_NAME`. -/
def DEFAULT_DATA_FEED_NAME : String := "coin_gecko_api"

/-- Method `get_exchange_rate(self, source=None)` (source lines 116-130).  The
`elif` chain is: `source == "default"` first, then `source` a key of
`_all_data_feed_exchange_rate`, then `source == "config"`, else raise. -/
def get_exchange_rate (s : ErcState) (source : Option String) :
    Except ErcErr (PyDict PFloat) :=
  if source = some "default" then
    match pyGet s.allDataFeedExchangeRate DEFAULT_DATA_FEED_NAME with
    | some snap => .ok snap
    | none => .error .dataFeedNameNotValid
  else
    match source with
    | some src =>
      match pyGet s.allDataFeedExchangeRate src with
      | some snap => .ok snap
      | none => if src = "config" then .ok s.exchangeRate else .error .invalidSource
    | none => .error .invalidSource

/-- Method `adjust_token_rate(self, asset_name, price, source=None)` (lines
136-151).  The lazy `self.start()` call only spawns the polling task and
does not affect the returned value, so it is not part of the value-level
model.  Note the source's asymmetry: membership is tested against
`self._exchange_rate` (the merged table) while the returned rate is read
from the table resolved by `get_exchange_rate(source)` — a key missing
there raises `KeyError`. -/
def adjust_token_rate (s : ErcState) (asset_name : String) (price : PFloat)
    (source : Option String) : Except ErcErr PFloat :=
  let asset := pyUpper asset_name
  match get_exchange_rate s source with
  | .error e => .error e
  | .ok table =>
    if (pyGet s.conversionRequired asset).isSome && (pyGet s.exchangeRate asset).isSome then
      match pyGet table asset with
      | some r => .ok (PFloat.mul r price)
      | none => .error (.keyError asset)
    else
      .ok price

/-- Method `convert_token_value(self, amount, from_currency, to_currency,
source=None)` (lines 153-176). -/
def convert_token_value (s : ErcState) (amount : PFloat)
    (from_currency to_currency : String) (source : Option String) :
    Except ErcErr PFloat :=
  match get_exchange_rate s source with
  | .error e => .error e
  | .ok table =>
    let fc := pyUpper from_currency
    let tc := pyUpper to_currency
    if (fc = "ETH" ∧ tc = "WETH") ∨ (fc = "WETH" ∧ tc = "ETH") then
      .ok amount
    else
      let fr := (pyGet table fc).getD .nan
      let tr := (pyGet table tc).getD .nan
      if fr.isNan || tr.isNan then
        .error (.conversionError fc tc)
      else
        PFloat.divRes (PFloat.mul amount fr) tr

/-- Lines 97-103 of `init_config`: uppercase both mappings, overlay
`conversion_required` onto `global_config`, and derive the initial merged
rate table from the defaults.  Returns the new `EffConfig` together with
the new `_exchange_rate`. -/
def resolveConfig (conversion_required global_config : PyDict SourceConfig) :
    EffConfig × PyDict PFloat :=
  let gc := upperKeys global_config
  let cr := upperKeys conversion_required
  let merged := pyMerge gc cr
  (⟨cr, merged⟩, pyDictOf (merged.map fun kv => (kv.1, kv.2.default)))

/-- Lines 90-103 of `init_config` on the no-override path: the
conversion list of `(asset, defaultRate, source)` triples and the fetcher
list of `(asset, source)` pairs (fetch-only assets get default NaN). -/
def initConfigLists (fetcher : List (String × String))
    (conv : List (String × PFloat × String)) : EffConfig × PyDict PFloat :=
  let conversion_required := pyDictOf (conv.map fun e => (e.1, SourceConfig.mk e.2.1 e.2.2))
  let global_config := pyDictOf (fetcher.map fun e => (e.1, SourceConfig.mk .nan e.2))
  resolveConfig conversion_required global_config

/-- The user-visible reports the claims are about. -/
inductive LogEvent where
  /-- The `logger().network(f"No data found for {asset} in {source} data
  feed.", ...)` report of `update_exchange_rates_from_data_feeds`. -/
  | assetNotFound (asset source : String)
  /-- The `logger().warning(f"Error initializing data feed - {name}.")`
  report of `wait_till_ready`. -/
  | feedInitError (feed : String)
deriving DecidableEq, Repr

/-- One iteration of the inner `for asset_name, config in ...global_config
.items()` loop of `update_exchange_rates_from_data_feeds` (lines 185-198),
for feed `f`.  `sh` is `_show_update_exchange_rates_from_data_feeds_errors`
as read during the cycle (the source only writes it after the loops).  The
accumulator is `(exchange-rate table, has_errors, emitted reports)`. -/
def refreshStep (sh : Bool) (f : DataFeed)
    (acc : PyDict PFloat × Bool × List LogEvent) (kv : String × SourceConfig) :
    PyDict PFloat × Bool × List LogEvent :=
  let asset := pyUpper kv.1
  if pyLower kv.2.source = pyLower f.name then
    let price := f.get_price asset
    if pyTruthy price then
      (pyInsert acc.1 asset (price.getD .nan), acc.2.1, acc.2.2)
    else
      (acc.1, true,
        if sh then acc.2.2 ++ [LogEvent.assetNotFound asset f.name] else acc.2.2)
  else
    acc

/-- The body of the outer `for data_feed in self._data_feeds` loop of
lines 183-198: run the inner loop over `global_config` for one feed. -/
def refreshFeed (sh : Bool) (gc : PyDict SourceConfig)
    (acc : PyDict PFloat × Bool × List LogEvent) (f : DataFeed) :
    PyDict PFloat × Bool × List LogEvent :=
  gc.foldl (refreshStep sh f) acc

/-- Method `update_exchange_rates_from_data_feeds` (lines 178-205) on its normal
path: capture every feed's snapshot, then merge matching prices per asset,
then flip the suppression flag if any lookup missed.  Feeds are pure data
here, so the `except`/re-raise path for feed I/O errors is not reachable
in the model.  Returns the new state and the emitted reports. -/
def update_exchange_rates_from_data_feeds (s : ErcState) :
    ErcState × List LogEvent :=
  let all := s.dataFeeds.foldl (fun acc f => pyInsert acc f.name f.priceDict)
    s.allDataFeedExchangeRate
  let res := s.dataFeeds.foldl (refreshFeed s.showUpdateErrors s.globalConfig)
    (s.exchangeRate, false, [])
  ({ s with
      allDataFeedExchangeRate := all
      exchangeRate := res.1
      showUpdateErrors := if res.2.1 then false else s.showUpdateErrors },
    res.2.2)

/-- One iteration of the `for data_feed in self._data_feeds` loop of
`wait_till_ready` (lines 208-214): `ready f.name` tells whether feed `f`'s
`get_ready()` completed within `_data_feed_timeout` (the real-time wait is
abstracted into this outcome oracle); on a timeout, the warning is logged
and the flag flipped only if the flag still holds. -/
def waitStep (ready : String → Bool) (acc : Bool × List LogEvent)
    (f : DataFeed) : Bool × List LogEvent :=
  if ready f.name then acc
  else if acc.1 then (false, acc.2 ++ [LogEvent.feedInitError f.name])
  else acc

/-- Method `wait_till_ready` (lines 207-214). -/
def wait_till_ready (s : ErcState) (ready : String → Bool) :
    ErcState × List LogEvent :=
  let res := s.dataFeeds.foldl (waitStep ready) (s.showWaitErrors, [])
  ({ s with showWaitErrors := res.1 }, res.2)

/-- A fully initialized state as produced by `init_config` on the
no-override path (snapshots start empty, both suppression flags start
true, as in the class attributes). -/
def mkInitState (fetcher : List (String × String))
    (conv : List (String × PFloat × String)) (feeds : List DataFeed) : ErcState :=
  let res := initConfigLists fetcher conv
  { conversionRequired := res.1.conversionRequired
    globalConfig := res.1.globalConfig
    exchangeRate := res.2
    allDataFeedExchangeRate := []
    dataFeeds := feeds
    showUpdateErrors := true
    showWaitErrors := true }

/-!
## Raw (dynamically-typed) model of `init_config`, for the error-handling
claim about malformed input.

The real `init_config` manipulates unvalidated Python data: the config
lists may have rows of the wrong arity, defaults that are not numbers, and
the test override may supply arbitrary dicts.  `RawVal` models a value
that is either a string or a float; `RawCfg` models a per-asset dict whose
`"default"`/`"source"` keys may be missing.

Exception geography of `init_config` (all exceptions are caught by the
`except` clause at line 105, which logs and returns):
* rows of the wrong arity raise `IndexError` inside the comprehensions at
  lines 91-92, and a non-string asset key raises `AttributeError` at
  `k.upper()` (lines 97-98) — all BEFORE the assignments at lines 99-103,
  so the whole prior state survives;
* `cls._exchange_rate_config` is assigned at line 99; the derivation of
  `cls._exchange_rate` at line 103 then evaluates `v["default"]`, which
  raises `KeyError` for an override entry missing its `"default"` key —
  AFTER the config assignment, so only the rate table survives;
* a non-numeric default raises nothing at all: it is stored verbatim.
-/

/-- A raw (dynamically typed) config value: a string or a float. -/
inductive RawVal where
  | str (s : String)
  | flt (p : PFloat)
deriving DecidableEq, Repr

/-- A raw per-asset config dict; `none` models a missing key. -/
structure RawCfg where
  dflt : Option RawVal
  src : Option RawVal
deriving DecidableEq, Repr

/-- The slice of class state `init_config` mutates (besides
`_data_feeds`, which the claim does not mention). -/
structure RawConfigState where
  conversionRequired : PyDict RawCfg
  globalConfig : PyDict RawCfg
  exchangeRate : PyDict RawVal
deriving DecidableEq, Repr

/-- One row of `exchange_rate_conversion`: `e[0]`, `e[1]`, `e[2]` must
exist (else `IndexError`) and `e[0]` must be a string (else
`AttributeError` at the later `k.upper()`); the default `e[1]` and source
`e[2]` are stored verbatim, whatever they are. -/
def parseConvRow (row : List RawVal) : Option (String × RawCfg) :=
  match row.get? 0, row.get? 1, row.get? 2 with
  | some (.str k), some d, some s => some (k, ⟨some d, some s⟩)
  | _, _, _ => none

/-- One row of `exchange_rate_fetcher`: `e[0]`, `e[1]` must exist and
`e[0]` must be a string; the default is `NaN`. -/
def parseFetchRow (row : List RawVal) : Option (String × RawCfg) :=
  match row.get? 0, row.get? 1 with
  | some (.str k), some s => some (k, ⟨some (.flt .nan), some s⟩)
  | _, _ => none

/-- Sequential fallible traversal: models a comprehension that raises
(and discards its partial result) at the first failing element. -/
def optionMapList {β γ : Type} (f : β → Option γ) : List β → Option (List γ)
  | [] => some []
  | x :: t =>
    match f x, optionMapList f t with
    | some y, some ys => some (y :: ys)
    | _, _ => none

/-- Line 103, `{k: v["default"] for k, v in ...}`: fails (with a caught
`KeyError`) as soon as some entry misses its `"default"` key, and the
partially built dict is discarded. -/
def ratesOf (d : PyDict RawCfg) : Option (PyDict RawVal) :=
  (optionMapList (fun (kv : String × RawCfg) => kv.2.dflt.map fun v => (kv.1, v)) d).map pyDictOf

/-- Lines 97-106 on raw data: the config assignment at lines 99-102 always
happens once control reaches it; the rate derivation at line 103 may then
fail, in which case the caught exception leaves `_exchange_rate`
unchanged.  The returned `Bool` is `true` iff the `except` clause logged
an error. -/
def rawResolve (conversion_required global_config : PyDict RawCfg)
    (s : RawConfigState) : RawConfigState × Bool :=
  let gc := upperKeys global_config
  let cr := upperKeys conversion_required
  let merged := pyMerge gc cr
  let s1 : RawConfigState :=
    { s with conversionRequired := cr, globalConfig := merged }
  match ratesOf merged with
  | some r => ({ s1 with exchangeRate := r }, false)
  | none => (s1, true)

/-- Method `init_config` on the no-override path over raw lists (lines 85-106):
a row failure happens before any assignment, so the whole prior state is
retained. -/
def init_config_raw_lists (s : RawConfigState)
    (fetcher conv : List (List RawVal)) : RawConfigState × Bool :=
  match optionMapList parseConvRow conv, optionMapList parseFetchRow fetcher with
  | some crL, some gcL => rawResolve (pyDictOf crL) (pyDictOf gcL) s
  | _, _ => (s, true)

/-- Method `init_config` on the override path (lines 93-106): the override's two
mappings are taken verbatim. -/
def init_config_raw_override (s : RawConfigState)
    (ov_cr ov_gc : PyDict RawCfg) : RawConfigState × Bool :=
  rawResolve ov_cr ov_gc s

/-!
## Dictionary lemmas
-/

section DictLemmas

variable {α : Type}

/-- Keys of a dict are pairwise distinct. -/
def NoDupKeys (d : PyDict α) : Prop :=
  d.Pairwise fun a b => a.1 ≠ b.1

theorem pyGet_insert_self (d : PyDict α) (k : String) (v : α) :
    pyGet (pyInsert d k v) k = some v := by
  induction d with
  | nil => simp [pyInsert, pyGet]
  | cons hd t ih =>
    obtain ⟨k', v'⟩ := hd
    by_cases h : k' = k <;> simp [pyInsert, pyGet, h, ih]

theorem pyGet_insert_ne (d : PyDict α) {k k' : String} (v : α) (h : k ≠ k') :
    pyGet (pyInsert d k v) k' = pyGet d k' := by
  induction d with
  | nil => simp [pyInsert, pyGet, h]
  | cons hd t ih =>
    obtain ⟨k₁, v₁⟩ := hd
    by_cases h₁ : k₁ = k
    · subst h₁; simp [pyInsert, pyGet, h]
    · simp [pyInsert, pyGet, h₁, ih]

theorem mem_pyInsert {d : PyDict α} {k : String} {v : α} {x : String × α}
    (hx : x ∈ pyInsert d k v) : x ∈ d ∨ x = (k, v) := by
  induction d with
  | nil => simpa [pyInsert] using hx
  | cons hd t ih =>
    obtain ⟨k₁, v₁⟩ := hd
    by_cases h₁ : k₁ = k
    · subst h₁
      simp only [pyInsert, if_pos] at hx
      rcases List.mem_cons.mp hx with h | h
      · exact .inr h
      · exact .inl (List.mem_cons_of_mem _ h)
    · simp only [pyInsert, if_neg h₁] at hx
      rcases List.mem_cons.mp hx with h | h
      · exact .inl (h ▸ List.mem_cons_self _ _)
      · rcases ih h with h' | h'
        · exact .inl (List.mem_cons_of_mem _ h')
        · exact .inr h'

theorem noDupKeys_pyInsert {d : PyDict α} (k : String) (v : α)
    (h : NoDupKeys d) : NoDupKeys (pyInsert d k v) := by
  induction d with
  | nil => simp [pyInsert, NoDupKeys]
  | cons hd t ih =>
    obtain ⟨k₁, v₁⟩ := hd
    have h' := List.pairwise_cons.mp h
    by_cases h₁ : k₁ = k
    · subst h₁
      simp only [pyInsert, if_pos]
      exact List.pairwise_cons.mpr ⟨h'.1, h'.2⟩
    · simp only [pyInsert, if_neg h₁]
      refine List.pairwise_cons.mpr ⟨fun x hx => ?_, ih h'.2⟩
      rcases mem_pyInsert hx with hm | hm
      · exact h'.1 x hm
      · subst hm; exact h₁

theorem mem_foldl_pyInsert {l : List (String × α)} {d : PyDict α}
    {x : String × α}
    (hx : x ∈ l.foldl (fun d kv => pyInsert d kv.1 kv.2) d) : x ∈ d ∨ x ∈ l := by
  induction l generalizing d with
  | nil => exact .inl hx
  | cons hd t ih =>
    rw [List.foldl_cons] at hx
    rcases ih hx with h | h
    · rcases mem_pyInsert h with h' | h'
      · exact .inl h'
      · refine .inr (List.mem_cons.mpr (.inl ?_))
        rw [h']
    · exact .inr (List.mem_cons_of_mem _ h)

theorem noDupKeys_foldl_pyInsert (l : List (String × α)) {d : PyDict α}
    (h : NoDupKeys d) :
    NoDupKeys (l.foldl (fun d kv => pyInsert d kv.1 kv.2) d) := by
  induction l generalizing d with
  | nil => exact h
  | cons hd t ih => exact ih (noDupKeys_pyInsert hd.1 hd.2 h)

theorem noDupKeys_pyDictOf (l : List (String × α)) : NoDupKeys (pyDictOf l) :=
  noDupKeys_foldl_pyInsert l (by simp [NoDupKeys])

theorem mem_pyDictOf {l : List (String × α)} {x : String × α}
    (hx : x ∈ pyDictOf l) : x ∈ l := by
  rcases mem_foldl_pyInsert hx with h | h
  · simp at h
  · exact h

theorem pyGet_foldl_insert_of_forall_ne {l : List (String × α)} {d : PyDict α}
    {k : String} (h : ∀ kv ∈ l, kv.1 ≠ k) :
    pyGet (l.foldl (fun d kv => pyInsert d kv.1 kv.2) d) k = pyGet d k := by
  induction l generalizing d with
  | nil => rfl
  | cons hd t ih =>
    rw [List.foldl_cons, ih (fun kv hkv => h kv (List.mem_cons_of_mem _ hkv)),
      pyGet_insert_ne _ _ (h hd (List.mem_cons_self _ _))]

theorem pyGet_mem {d : PyDict α} {k : String} {v : α}
    (h : pyGet d k = some v) : (k, v) ∈ d := by
  induction d with
  | nil => simp [pyGet] at h
  | cons hd t ih =>
    obtain ⟨k₁, v₁⟩ := hd
    by_cases h₁ : k₁ = k
    · subst h₁
      simp only [pyGet, if_pos, Option.some_inj] at h
      subst h
      exact List.mem_cons_self _ _
    · simp only [pyGet, if_neg h₁] at h
      exact List.mem_cons_of_mem _ (ih h)

theorem pyGet_eq_none_iff {d : PyDict α} {k : String} :
    pyGet d k = none ↔ ∀ kv ∈ d, kv.1 ≠ k := by
  induction d with
  | nil => simp [pyGet]
  | cons hd t ih =>
    obtain ⟨k₁, v₁⟩ := hd
    by_cases h₁ : k₁ = k
    · subst h₁; simp [pyGet]
    · simp [pyGet, h₁, ih]

theorem pyGet_of_mem_nodup {d : PyDict α} {k : String} {v : α}
    (hnd : NoDupKeys d) (h : (k, v) ∈ d) : pyGet d k = some v := by
  induction d with
  | nil => simp at h
  | cons hd t ih =>
    obtain ⟨k₁, v₁⟩ := hd
    have hnd' := List.pairwise_cons.mp hnd
    rcases List.mem_cons.mp h with h' | h'
    · rw [show k₁ = k from (congrArg Prod.fst h').symm,
        show v₁ = v from (congrArg Prod.snd h').symm]
      simp [pyGet]
    · have hk : k₁ ≠ k := by
        intro he; subst he
        exact (hnd'.1 _ h') rfl
      simp only [pyGet, if_neg hk]
      exact ih hnd'.2 h'

/-- Looking up a key bound in `b` (a genuine dict) in `{**a, **b}` yields
the binding from `b`. -/
theorem pyGet_pyMerge_right {a b : PyDict α} {k : String} {v : α}
    (hnd : NoDupKeys b) (h : pyGet b k = some v) :
    pyGet (pyMerge a b) k = some v := by
  induction b generalizing a with
  | nil => simp [pyGet] at h
  | cons hd t ih =>
    obtain ⟨k₁, v₁⟩ := hd
    have hnd' := List.pairwise_cons.mp hnd
    by_cases h₁ : k₁ = k
    · subst h₁
      simp only [pyGet, if_pos, Option.some_inj] at h
      subst h
      rw [pyMerge, List.foldl_cons]
      have hne : ∀ kv ∈ t, kv.1 ≠ k₁ := fun kv hkv => (hnd'.1 kv hkv).symm
      calc pyGet (t.foldl (fun d kv => pyInsert d kv.1 kv.2) (pyInsert a k₁ v₁)) k₁
          = pyGet (pyInsert a k₁ v₁) k₁ := pyGet_foldl_insert_of_forall_ne hne
        _ = some v₁ := pyGet_insert_self a k₁ v₁
    · simp only [pyGet, if_neg h₁] at h
      rw [pyMerge, List.foldl_cons]
      exact ih hnd'.2 h

/-- Looking up a key unbound in `b` in `{**a, **b}` falls back to `a`. -/
theorem pyGet_pyMerge_left {a b : PyDict α} {k : String}
    (h : pyGet b k = none) : pyGet (pyMerge a b) k = pyGet a k := by
  rw [pyMerge]
  exact pyGet_foldl_insert_of_forall_ne (pyGet_eq_none_iff.mp h)

theorem pyGet_map_values {β : Type} (d : PyDict α) (f : α → β) (k : String) :
    pyGet (d.map fun kv => (kv.1, f kv.2)) k = (pyGet d k).map f := by
  induction d with
  | nil => simp [pyGet]
  | cons hd t ih =>
    obtain ⟨k₁, v₁⟩ := hd
    by_cases h₁ : k₁ = k <;> simp [pyGet, h₁, ih]

theorem pyInsert_of_not_mem_keys {d : PyDict α} {k : String} (v : α)
    (h : ∀ kv ∈ d, kv.1 ≠ k) : pyInsert d k v = d ++ [(k, v)] := by
  induction d with
  | nil => rfl
  | cons hd t ih =>
    obtain ⟨k₁, v₁⟩ := hd
    rw [pyInsert.eq_def]
    simp only [if_neg (h (k₁, v₁) (List.mem_cons_self _ _))]
    rw [ih (fun kv hkv => h kv (List.mem_cons_of_mem _ hkv)), List.cons_append]

/-- Building a dict from a list that already has distinct keys is the
identity. -/
theorem pyDictOf_eq_self {l : List (String × α)} (h : NoDupKeys l) :
    pyDictOf l = l := by
  rw [pyDictOf]
  suffices H : ∀ (l d : List (String × α)), NoDupKeys (d ++ l) →
      l.foldl (fun d kv => pyInsert d kv.1 kv.2) d = d ++ l by
    simpa using H l [] (by simpa using h)
  intro l
  induction l with
  | nil => intro d _; simp
  | cons hd t ih =>
    intro d hnd
    rw [List.foldl_cons]
    have hsplit := List.pairwise_append.mp hnd
    have hne : ∀ kv ∈ d, kv.1 ≠ hd.1 :=
      fun kv hkv => hsplit.2.2 kv hkv hd (List.mem_cons_self _ _)
    rw [pyInsert_of_not_mem_keys hd.2 hne]
    have hnd2 : NoDupKeys ((d ++ [(hd.1, hd.2)]) ++ t) := by
      have he : (d ++ [(hd.1, hd.2)]) ++ t = d ++ (hd.1, hd.2) :: t := by simp
      rw [NoDupKeys, he]
      simpa using hnd
    rw [ih _ hnd2]
    simp

end DictLemmas

/-!
## Config-resolution lemmas
-/

theorem noDupKeys_map_values {α β : Type} {d : PyDict α} (f : α → β)
    (h : NoDupKeys d) : NoDupKeys (d.map fun kv => (kv.1, f kv.2)) :=
  List.pairwise_map.mpr h

theorem noDupKeys_upperKeys {α : Type} (d : PyDict α) : NoDupKeys (upperKeys d) :=
  noDupKeys_pyDictOf _

theorem mem_upperKeys {α : Type} {d : PyDict α} {x : String × α}
    (hx : x ∈ upperKeys d) : ∃ kv ∈ d, x = (pyUpper kv.1, kv.2) := by
  have := mem_pyDictOf hx
  obtain ⟨kv, hkv, he⟩ := List.mem_map.mp this
  exact ⟨kv, hkv, he.symm⟩

theorem resolveConfig_cr (cr gc : PyDict SourceConfig) :
    (resolveConfig cr gc).1.conversionRequired = upperKeys cr := rfl

theorem resolveConfig_globalConfig (cr gc : PyDict SourceConfig) :
    (resolveConfig cr gc).1.globalConfig
      = pyMerge (upperKeys gc) (upperKeys cr) := rfl

theorem resolveConfig_rates (cr gc : PyDict SourceConfig) :
    (resolveConfig cr gc).2
      = pyDictOf ((resolveConfig cr gc).1.globalConfig.map
          fun kv => (kv.1, kv.2.default)) := rfl

theorem noDupKeys_resolve_globalConfig (cr gc : PyDict SourceConfig) :
    NoDupKeys (resolveConfig cr gc).1.globalConfig :=
  noDupKeys_foldl_pyInsert _ (noDupKeys_upperKeys gc)

/-- The initial merged rate table is the per-key `default` of the merged
global config. -/
theorem resolveConfig_rates_get (cr gc : PyDict SourceConfig) (k : String) :
    pyGet (resolveConfig cr gc).2 k
      = (pyGet (resolveConfig cr gc).1.globalConfig k).map SourceConfig.default := by
  rw [resolveConfig_rates,
    pyDictOf_eq_self (noDupKeys_map_values SourceConfig.default
      (noDupKeys_resolve_globalConfig cr gc))]
  exact pyGet_map_values _ _ _

/-- A key of the (uppercased) conversion-required table keeps its
conversion-required binding in the merged global config. -/
theorem resolve_cr_get_globalConfig {cr gc : PyDict SourceConfig} {k : String}
    {v : SourceConfig}
    (h : pyGet (resolveConfig cr gc).1.conversionRequired k = some v) :
    pyGet (resolveConfig cr gc).1.globalConfig k = some v := by
  rw [resolveConfig_cr] at h
  rw [resolveConfig_globalConfig]
  exact pyGet_pyMerge_right (noDupKeys_upperKeys cr) h

/-- Equation `initConfigLists` = `resolveConfig` on the dicts built from
the two config lists. -/
theorem initConfigLists_eq (fetcher : List (String × String))
    (conv : List (String × PFloat × String)) :
    initConfigLists fetcher conv
      = resolveConfig (pyDictOf (conv.map fun e => (e.1, SourceConfig.mk e.2.1 e.2.2)))
          (pyDictOf (fetcher.map fun e => (e.1, SourceConfig.mk .nan e.2))) := rfl

/-- Invariant established by `init_config`: every conversion-required
asset has an entry in the merged rate table. -/
theorem mkInitState_cr_subset (fetcher : List (String × String))
    (conv : List (String × PFloat × String)) (feeds : List DataFeed) :
    ∀ k, (pyGet (mkInitState fetcher conv feeds).conversionRequired k).isSome = true →
      (pyGet (mkInitState fetcher conv feeds).exchangeRate k).isSome = true := by
  intro k h
  rw [Option.isSome_iff_exists] at h
  obtain ⟨v, hv⟩ := h
  have h1 : pyGet (initConfigLists fetcher conv).1.conversionRequired k = some v := hv
  rw [initConfigLists_eq] at h1
  have h2 := resolve_cr_get_globalConfig h1
  show (pyGet (initConfigLists fetcher conv).2 k).isSome = true
  rw [initConfigLists_eq, resolveConfig_rates_get, h2]
  rfl

/-!
## Claim C5
-/

/-- Claim C5 (confirmed): after config resolution, every asset key
present in the resolved `conversionRequired` mapping is present in the
resolved `globalConfig` mapping with exactly its `conversionRequired`
entry — conversion-required wins on key collision, so `globalConfig` is a
superset of `conversionRequired`.  (`resolveConfig` is the shared tail of
`init_config`, reached on both the override and the no-override path.) -/
theorem c5_global_superset (cr gc : PyDict SourceConfig) (k : String)
    (v : SourceConfig)
    (h : pyGet (resolveConfig cr gc).1.conversionRequired k = some v) :
    pyGet (resolveConfig cr gc).1.globalConfig k = some v :=
  resolve_cr_get_globalConfig h

/-- Witness for C5: the fetch list and the conversion list disagree on
asset BTC; the merged global config keeps the conversion-list entry. -/
theorem c5_witness :
    pyGet (resolveConfig [("btc", ⟨.num 2, "feedA"⟩)]
        [("BTC", ⟨.nan, "feedB"⟩)]).1.globalConfig "BTC"
      = some ⟨.num 2, "feedA"⟩ :=
  c5_global_superset [("btc", ⟨.num 2, "feedA"⟩)] [("BTC", ⟨.nan, "feedB"⟩)]
    "BTC" ⟨.num 2, "feedA"⟩ (by decide)

/-!
## Claim C6
-/

/-- Claim C6 (confirmed): immediately after `init_config` (before any
refresh), every conversion-required asset is mapped by the merged rate
table to its configured default, every fetch-only asset is mapped to NaN,
and on Scenario A (fetch list `[("BTC","feedX")]`, conversion list
`[("USDT", 1.0, "feedX")]`) the merged rate table is exactly
`{BTC: NaN, USDT: 1.0}`. -/
theorem c6_init_rates :
    (∀ (fetcher : List (String × String)) (conv : List (String × PFloat × String))
      (a : String) (cfg : SourceConfig),
      pyGet (initConfigLists fetcher conv).1.conversionRequired a = some cfg →
      pyGet (initConfigLists fetcher conv).2 a = some cfg.default)
    ∧ (∀ (fetcher : List (String × String)) (conv : List (String × PFloat × String))
      (a : String) (cfg : SourceConfig),
      pyGet (initConfigLists fetcher conv).1.conversionRequired a = none →
      pyGet (initConfigLists fetcher conv).1.globalConfig a = some cfg →
      pyGet (initConfigLists fetcher conv).2 a = some PFloat.nan)
    ∧ (initConfigLists [("BTC", "feedX")] [("USDT", .num 1, "feedX")]).2
        = [("BTC", PFloat.nan), ("USDT", PFloat.num 1)] := by
  refine ⟨?_, ?_, by decide⟩
  · intro fetcher conv a cfg h
    rw [initConfigLists_eq] at h ⊢
    have h2 := resolve_cr_get_globalConfig h
    rw [resolveConfig_rates_get, h2]
    rfl
  · intro fetcher conv a cfg hnone hsome
    rw [initConfigLists_eq] at hnone hsome ⊢
    rw [resolveConfig_cr] at hnone
    have hleft := hsome
    rw [resolveConfig_globalConfig, pyGet_pyMerge_left hnone] at hleft
    have hdef : cfg.default = PFloat.nan := by
      have hmem := pyGet_mem hleft
      obtain ⟨kv, hkv, he⟩ := mem_upperKeys hmem
      have hkv2 := mem_pyDictOf hkv
      obtain ⟨e, _, he2⟩ := List.mem_map.mp hkv2
      have hc : cfg = kv.2 := congrArg Prod.snd he
      rw [hc, ← he2]
    rw [resolveConfig_rates_get, hsome, Option.map_some', hdef]

/-- Witness for C6: on Scenario A the conversion-required asset USDT gets
its configured default 1.0. -/
theorem c6_witness :
    pyGet (initConfigLists [("BTC", "feedX")] [("USDT", .num 1, "feedX")]).2 "USDT"
      = some (PFloat.num 1) :=
  c6_init_rates.1 [("BTC", "feedX")] [("USDT", .num 1, "feedX")] "USDT"
    ⟨.num 1, "feedX"⟩ (by decide)

/-!
## Claim C10
-/

/-- Claim C10 (confirmed): calling `adjust_token_rate` or
`convert_token_value` with the `source` argument omitted (`source=None`)
always surfaces the invalid-source error of `get_exchange_rate`, for
every state, asset, price, amount and currency pair — so the untracked
pass-through and the ETH/WETH shortcut are unreachable with the default
source. -/
theorem c10_none_source_invalid (s : ErcState) :
    (∀ (asset : String) (price : PFloat),
      adjust_token_rate s asset price none = .error .invalidSource)
    ∧ (∀ (amount : PFloat) (fc tc : String),
      convert_token_value s amount fc tc none = .error .invalidSource) := by
  constructor
  · intro asset price
    simp [adjust_token_rate, get_exchange_rate]
  · intro amount fc tc
    simp [convert_token_value, get_exchange_rate]

/-!
## Concrete states shared by witnesses and counterexamples
-/

/-- Scenario-A state: fetch list `[("BTC","feedX")]`, conversion list
`[("USDT", 1.0, "feedX")]`, no feeds polled yet. -/
def stateA : ErcState :=
  mkInitState [("BTC", "feedX")] [("USDT", .num 1, "feedX")] []

/-!
## Claim C2
-/

/-- Claim C2 (amended): for every state satisfying the init-established
invariant (every conversion-required key appears in the merged rate
table) and every source accepted by `get_exchange_rate`, resolving to
table `T`: when the uppercased asset is in both `conversionRequired` and
`T`, `adjust_token_rate` returns `T[asset] * price`; when the uppercased
asset is not in `conversionRequired`, it returns `price` unchanged. -/
theorem c2_adjust_amended (s : ErcState) (asset : String) (price : PFloat)
    (source : Option String) (table : PyDict PFloat)
    (hok : get_exchange_rate s source = .ok table)
    (hinv : ∀ k, (pyGet s.conversionRequired k).isSome = true →
      (pyGet s.exchangeRate k).isSome = true) :
    (∀ r, (pyGet s.conversionRequired (pyUpper asset)).isSome = true →
      pyGet table (pyUpper asset) = some r →
      adjust_token_rate s asset price source = .ok (PFloat.mul r price))
    ∧ (pyGet s.conversionRequired (pyUpper asset) = none →
      adjust_token_rate s asset price source = .ok price) := by
  constructor
  · intro r hcr htab
    have hm := hinv _ hcr
    simp [adjust_token_rate, hok, hcr, hm, htab]
  · intro hcr
    simp [adjust_token_rate, hok, hcr]

/-- Counterexample to C2 as stated: the claim quantifies over every
source, but with the default source (`None`) the call raises the
invalid-source error instead of passing an untracked asset's price
through. -/
theorem c2_counterexample :
    pyGet stateA.conversionRequired "XYZ" = none
    ∧ adjust_token_rate stateA "XYZ" (.num 5) none ≠ .ok (.num 5)
    ∧ adjust_token_rate stateA "XYZ" (.num 5) none = .error .invalidSource := by
  decide

/-- Witness for C2: with source `"config"` on the Scenario-A state, the
conversion-required asset usdt is multiplied by its rate 1.0. -/
theorem c2_witness :
    adjust_token_rate stateA "usdt" (.num 3) (some "config")
      = .ok (PFloat.mul (.num 1) (.num 3)) :=
  (c2_adjust_amended stateA "usdt" (.num 3) (some "config") stateA.exchangeRate
    (by decide)
    (mkInitState_cr_subset [("BTC", "feedX")] [("USDT", .num 1, "feedX")] [])).1
    (.num 1) (by decide) (by decide)

/-!
## Claim C3
-/

/-- Claim C3 (amended): for every state, amount, and source accepted by
`get_exchange_rate`, converting between ETH and WETH in either direction
returns the amount unchanged, regardless of the cached rates (including
when either rate is NaN or absent). -/
theorem c3_eth_weth_amended (s : ErcState) (x : PFloat) (source : Option String)
    (table : PyDict PFloat) (hok : get_exchange_rate s source = .ok table) :
    convert_token_value s x "ETH" "WETH" source = .ok x
    ∧ convert_token_value s x "WETH" "ETH" source = .ok x := by
  constructor <;>
  · simp only [convert_token_value, hok]
    rw [if_pos (by decide)]

/-- Counterexample to C3 as stated: with the source argument omitted
(`None`, as in the claim's calls), the ETH/WETH shortcut is never reached
and the call raises the invalid-source error instead of returning `x`. -/
theorem c3_counterexample :
    convert_token_value stateA (.num 1) "ETH" "WETH" none = .error .invalidSource
    ∧ convert_token_value stateA (.num 1) "ETH" "WETH" none ≠ .ok (.num 1) := by
  decide

/-- Witness for C3: with source `"config"` both directions return the
amount although neither ETH nor WETH has any cached rate. -/
theorem c3_witness :
    convert_token_value stateA (.num 7) "ETH" "WETH" (some "config") = .ok (.num 7)
    ∧ convert_token_value stateA (.num 7) "WETH" "ETH" (some "config") = .ok (.num 7) :=
  c3_eth_weth_amended stateA (.num 7) (some "config") stateA.exchangeRate (by decide)

/-!
## Claim C4
-/

/-- Claim C4 (amended): for every amount and every pair of assets other
than the ETH/WETH pair, with a source accepted by `get_exchange_rate`
resolving to table `T` (the merged rates for source `"config"`),
`convert_token_value` fails with the conversion error whenever either
asset's rate in `T` is NaN or absent (absent defaults to NaN) — so it
never returns a value computed with a defaulted rate. -/
theorem c4_convert_nan_amended (s : ErcState) (x : PFloat) (fc tc : String)
    (source : Option String) (table : PyDict PFloat)
    (hok : get_exchange_rate s source = .ok table)
    (hpair : ¬((pyUpper fc = "ETH" ∧ pyUpper tc = "WETH")
        ∨ (pyUpper fc = "WETH" ∧ pyUpper tc = "ETH")))
    (hnan : ((pyGet table (pyUpper fc)).getD .nan).isNan = true
        ∨ ((pyGet table (pyUpper tc)).getD .nan).isNan = true) :
    convert_token_value s x fc tc source
      = .error (.conversionError (pyUpper fc) (pyUpper tc)) := by
  simp only [convert_token_value, hok]
  rw [if_neg hpair]
  rcases hnan with h | h <;> simp [h]

/-- Counterexample to C4 as stated: the claim quantifies over every pair
of assets, but for the pair (ETH, WETH) the shortcut returns the amount
even though ETH's merged rate is absent (hence NaN). -/
theorem c4_counterexample :
    pyGet stateA.exchangeRate "ETH" = none
    ∧ convert_token_value stateA (.num 7) "ETH" "WETH" (some "config")
        = .ok (.num 7) := by
  decide

/-- Witness for C4: on the Scenario-A state, BTC's merged rate is NaN, so
converting BTC to USDT through the merged table fails with the
conversion error. -/
theorem c4_witness :
    convert_token_value stateA (.num 7) "BTC" "USDT" (some "config")
      = .error (.conversionError "BTC" "USDT") :=
  c4_convert_nan_amended stateA (.num 7) "BTC" "USDT" (some "config")
    stateA.exchangeRate (by decide) (by decide) (Or.inl (by decide))

/-!
## Claim C7
-/

/-- Claim C7 (amended): provided no data-feed snapshot is stored under
the reserved names `"default"` or `"config"`, `get_exchange_rate` returns
the named provider's snapshot when the source is a known provider name,
returns the merged rate table when the source is `"config"`, returns the
default provider's (`coin_gecko_api`) snapshot when the source is
`"default"` — erroring when that snapshot is absent — and raises the
invalid-source error for every other source, `None` included. -/
theorem c7_get_exchange_rate_amended (s : ErcState) (source : Option String)
    (hc : pyGet s.allDataFeedExchangeRate "config" = none)
    (hd : pyGet s.allDataFeedExchangeRate "default" = none) :
    (∀ name snap, source = some name →
      pyGet s.allDataFeedExchangeRate name = some snap →
      get_exchange_rate s source = .ok snap)
    ∧ (source = some "config" → get_exchange_rate s source = .ok s.exchangeRate)
    ∧ (∀ snap, source = some "default" →
      pyGet s.allDataFeedExchangeRate DEFAULT_DATA_FEED_NAME = some snap →
      get_exchange_rate s source = .ok snap)
    ∧ (source = some "default" →
      pyGet s.allDataFeedExchangeRate DEFAULT_DATA_FEED_NAME = none →
      get_exchange_rate s source = .error .dataFeedNameNotValid)
    ∧ (∀ name, source = some name → name ≠ "default" → name ≠ "config" →
      pyGet s.allDataFeedExchangeRate name = none →
      get_exchange_rate s source = .error .invalidSource)
    ∧ (source = none → get_exchange_rate s source = .error .invalidSource) := by
  refine ⟨?_, ?_, ?_, ?_, ?_, ?_⟩
  · intro name snap hs hsnap
    subst hs
    have hnd : name ≠ "default" := by
      rintro rfl
      rw [hd] at hsnap
      cases hsnap
    simp [get_exchange_rate, hnd, hsnap]
  · intro hs
    subst hs
    simp [get_exchange_rate, hc]
  · intro snap hs hsnap
    subst hs
    simp [get_exchange_rate, hsnap]
  · intro hs hnone
    subst hs
    simp [get_exchange_rate, hnone]
  · intro name hs hnd hnc hnone
    subst hs
    simp [get_exchange_rate, hnd, hnc, hnone]
  · intro hs
    subst hs
    simp [get_exchange_rate]

/-- A data feed whose name collides with the reserved source `"config"`. -/
def feedCfg : DataFeed := ⟨"config", [("BTC", .num 2)]⟩

/-- A data feed whose name collides with the reserved source `"default"`. -/
def feedDef : DataFeed := ⟨"default", [("ETH", .num 3)]⟩

/-- A state (reached by one refresh cycle over the two clashing feeds)
holding snapshots under the names `"config"` and `"default"`. -/
def stateC7 : ErcState :=
  (update_exchange_rates_from_data_feeds (mkInitState [] [] [feedCfg, feedDef])).1

/-- Counterexample to C7 as stated: when a provider is named `"config"`,
`get_exchange_rate("config")` returns that provider's snapshot, not a
copy of the merged rates; when a provider is named `"default"`,
`get_exchange_rate("default")` errors (the default feed `coin_gecko_api`
has no snapshot) instead of returning that provider's snapshot. -/
theorem c7_counterexample :
    pyGet stateC7.allDataFeedExchangeRate "config" = some [("BTC", .num 2)]
    ∧ get_exchange_rate stateC7 (some "config") = .ok [("BTC", .num 2)]
    ∧ stateC7.exchangeRate = []
    ∧ get_exchange_rate stateC7 (some "config") ≠ .ok stateC7.exchangeRate
    ∧ pyGet stateC7.allDataFeedExchangeRate "default" = some [("ETH", .num 3)]
    ∧ get_exchange_rate stateC7 (some "default") = .error .dataFeedNameNotValid := by
  decide

/-- A normally named data feed. -/
def feedY : DataFeed := ⟨"feedY", [("BTC", .num 9)]⟩

/-- A state with one polled snapshot under the name `"feedY"`. -/
def stateC7w : ErcState :=
  (update_exchange_rates_from_data_feeds (mkInitState [] [] [feedY])).1

/-- Witness for C7: a known provider name resolves to its snapshot, and
an unknown source (`"unknownSource"`, as in Scenario C) raises the
invalid-source error. -/
theorem c7_witness :
    get_exchange_rate stateC7w (some "feedY") = .ok [("BTC", .num 9)]
    ∧ get_exchange_rate stateC7w (some "unknownSource") = .error .invalidSource :=
  ⟨(c7_get_exchange_rate_amended stateC7w (some "feedY") (by decide) (by decide)).1
      "feedY" [("BTC", .num 9)] rfl (by decide),
   (c7_get_exchange_rate_amended stateC7w (some "unknownSource") (by decide)
      (by decide)).2.2.2.2.1 "unknownSource" rfl (by decide) (by decide) (by decide)⟩

/-!
## Refresh-loop lemmas (for claims C1 and C8)
-/

theorem pyTruthy_some {p : Option PFloat} (h : pyTruthy p = true) :
    p = some (p.getD .nan) := by
  cases p with
  | none => simp [pyTruthy] at h
  | some v => rfl

theorem refreshStep_fst_ne (sh : Bool) (f : DataFeed)
    (acc : PyDict PFloat × Bool × List LogEvent) (kv : String × SourceConfig)
    {a : String} (h : pyUpper kv.1 ≠ a) :
    pyGet (refreshStep sh f acc kv).1 a = pyGet acc.1 a := by
  unfold refreshStep
  by_cases h1 : pyLower kv.2.source = pyLower f.name
  · by_cases h2 : pyTruthy (f.get_price (pyUpper kv.1)) = true
    · simp [h1, h2, pyGet_insert_ne _ _ h]
    · simp [h1, h2]
  · simp [h1]

theorem foldl_refreshStep_fst_ne (sh : Bool) (f : DataFeed)
    {gc : PyDict SourceConfig} {a : String}
    (h : ∀ kv ∈ gc, pyUpper kv.1 ≠ a)
    (acc : PyDict PFloat × Bool × List LogEvent) :
    pyGet (gc.foldl (refreshStep sh f) acc).1 a = pyGet acc.1 a := by
  induction gc generalizing acc with
  | nil => rfl
  | cons hd t ih =>
    rw [List.foldl_cons, ih (fun kv hkv => h kv (List.mem_cons_of_mem _ hkv)),
      refreshStep_fst_ne sh f acc hd (h hd (List.mem_cons_self _ _))]

theorem refreshStep_err_mono (sh : Bool) (f : DataFeed)
    (acc : PyDict PFloat × Bool × List LogEvent) (kv : String × SourceConfig)
    (h : acc.2.1 = true) : (refreshStep sh f acc kv).2.1 = true := by
  unfold refreshStep
  by_cases h1 : pyLower kv.2.source = pyLower f.name
  · by_cases h2 : pyTruthy (f.get_price (pyUpper kv.1)) = true
    · simp [h1, h2, h]
    · simp [h1, h2]
  · simp [h1, h]

theorem foldl_refreshStep_err_mono (sh : Bool) (f : DataFeed)
    (gc : PyDict SourceConfig) (acc : PyDict PFloat × Bool × List LogEvent)
    (h : acc.2.1 = true) : (gc.foldl (refreshStep sh f) acc).2.1 = true := by
  induction gc generalizing acc with
  | nil => exact h
  | cons hd t ih =>
    rw [List.foldl_cons]
    exact ih _ (refreshStep_err_mono sh f acc hd h)

/-- Projection of the refresh cycle: the new merged rate table is the
nested fold of `refreshStep` over all registered feeds. -/
theorem update_rates_eq (s : ErcState) :
    (update_exchange_rates_from_data_feeds s).1.exchangeRate
      = (s.dataFeeds.foldl (refreshFeed s.showUpdateErrors s.globalConfig)
          (s.exchangeRate, false, [])).1 := rfl

/-- Projection of the refresh cycle: the suppression flag is cleared iff
the cycle recorded an error. -/
theorem update_flag_eq (s : ErcState) :
    (update_exchange_rates_from_data_feeds s).1.showUpdateErrors
      = (if (s.dataFeeds.foldl (refreshFeed s.showUpdateErrors s.globalConfig)
            (s.exchangeRate, false, [])).2.1 = true
         then false else s.showUpdateErrors) := rfl

/-- Projection of the refresh cycle: the emitted reports. -/
theorem update_logs_eq (s : ErcState) :
    (update_exchange_rates_from_data_feeds s).2
      = (s.dataFeeds.foldl (refreshFeed s.showUpdateErrors s.globalConfig)
          (s.exchangeRate, false, [])).2.2 := rfl

/-- The net effect of the inner `global_config` loop on one asset's
merged-rate entry, for one feed `f`: if `f` matches the asset's source
and its price is truthy, the entry becomes that price; otherwise it is
untouched. -/
theorem foldl_refreshStep_get (sh : Bool) (f : DataFeed)
    {gc : PyDict SourceConfig} {a : String} {cfg : SourceConfig}
    (hnodup : (gc.map Prod.fst).Nodup)
    (hupper : ∀ k ∈ gc.map Prod.fst, pyUpper k = k)
    (hmem : (a, cfg) ∈ gc)
    (acc : PyDict PFloat × Bool × List LogEvent) :
    pyGet (gc.foldl (refreshStep sh f) acc).1 a
      = if pyLower cfg.source = pyLower f.name ∧ pyTruthy (f.get_price a) = true
        then f.get_price a else pyGet acc.1 a := by
  obtain ⟨l₁, l₂, hgc⟩ := List.append_of_mem hmem
  have ha : pyUpper a = a := hupper a (by rw [hgc]; simp)
  have hnd : (l₁.map Prod.fst).Disjoint (a :: l₂.map Prod.fst)
      ∧ a ∉ l₂.map Prod.fst := by
    rw [hgc] at hnodup
    simp only [List.map_append, List.map_cons] at hnodup
    have h1 := List.nodup_append.mp hnodup
    exact ⟨h1.2.2, (List.nodup_cons.mp h1.2.1).1⟩
  have h1 : ∀ kv ∈ l₁, pyUpper kv.1 ≠ a := by
    intro kv hkv
    have hk : kv.1 ∈ gc.map Prod.fst := by
      rw [hgc]; simp only [List.map_append, List.map_cons]
      exact List.mem_append_left _ (List.mem_map_of_mem _ hkv)
    rw [hupper kv.1 hk]
    intro he
    exact hnd.1 (List.mem_map_of_mem _ hkv) (he ▸ List.mem_cons_self _ _)
  have h2 : ∀ kv ∈ l₂, pyUpper kv.1 ≠ a := by
    intro kv hkv
    have hk : kv.1 ∈ gc.map Prod.fst := by
      rw [hgc]; simp only [List.map_append, List.map_cons]
      exact List.mem_append_right _ (List.mem_cons_of_mem _ (List.mem_map_of_mem _ hkv))
    rw [hupper kv.1 hk]
    intro he
    exact hnd.2 (he ▸ List.mem_map_of_mem _ hkv)
  rw [hgc, List.foldl_append, List.foldl_cons]
  set acc1 := l₁.foldl (refreshStep sh f) acc with hacc1
  have hacc1get : pyGet acc1.1 a = pyGet acc.1 a :=
    foldl_refreshStep_fst_ne _ _ h1 acc
  by_cases hm : pyLower cfg.source = pyLower f.name
  · by_cases ht : pyTruthy (f.get_price a) = true
    · rw [if_pos ⟨hm, ht⟩, foldl_refreshStep_fst_ne _ _ h2]
      have hstep : (refreshStep sh f acc1 (a, cfg)).1
          = pyInsert acc1.1 a ((f.get_price a).getD .nan) := by
        unfold refreshStep
        simp [hm, ha, ht]
      rw [hstep, pyGet_insert_self]
      exact (pyTruthy_some ht).symm
    · rw [if_neg (fun hc => ht hc.2), foldl_refreshStep_fst_ne _ _ h2]
      have hF : pyTruthy (f.get_price a) = false := by
        cases hv : pyTruthy (f.get_price a)
        · rfl
        · exact absurd hv ht
      have hstep : (refreshStep sh f acc1 (a, cfg)).1 = acc1.1 := by
        unfold refreshStep
        simp [hm, ha, hF]
      rw [hstep, hacc1get]
  · rw [if_neg (fun hc => hm hc.1), foldl_refreshStep_fst_ne _ _ h2]
    have hstep : refreshStep sh f acc1 (a, cfg) = acc1 := by
      unfold refreshStep
      simp [hm]
    rw [hstep, hacc1get]

/-- The per-asset net effect of one refresh cycle: fold over the feeds in
registration order, overwriting the value with each matching feed's price
whenever that price is truthy. -/
def assetMergedRate (feeds : List DataFeed) (a : String) (cfg : SourceConfig)
    (prev : Option PFloat) : Option PFloat :=
  feeds.foldl (fun v f =>
    if pyLower cfg.source = pyLower f.name ∧ pyTruthy (f.get_price a) = true
    then f.get_price a else v) prev

theorem assetMergedRate_cons (f : DataFeed) (t : List DataFeed) (a : String)
    (cfg : SourceConfig) (prev : Option PFloat) :
    assetMergedRate (f :: t) a cfg prev
      = assetMergedRate t a cfg
          (if pyLower cfg.source = pyLower f.name ∧ pyTruthy (f.get_price a) = true
           then f.get_price a else prev) := rfl

theorem assetMergedRate_append (l₁ l₂ : List DataFeed) (a : String)
    (cfg : SourceConfig) (prev : Option PFloat) :
    assetMergedRate (l₁ ++ l₂) a cfg prev
      = assetMergedRate l₂ a cfg (assetMergedRate l₁ a cfg prev) := by
  simp only [assetMergedRate, List.foldl_append]

/-- If every matching-and-truthy feed would write back the current value,
the fold leaves the value unchanged (covers: no feed matches; every
matching feed's price is falsy). -/
theorem assetMergedRate_const {a : String} {cfg : SourceConfig} :
    ∀ (feeds : List DataFeed) (v : Option PFloat),
    (∀ g ∈ feeds, pyLower cfg.source = pyLower g.name →
      pyTruthy (g.get_price a) = true → g.get_price a = v) →
    assetMergedRate feeds a cfg v = v := by
  intro feeds
  induction feeds with
  | nil => intro v _; rfl
  | cons g t ih =>
    intro v h
    rw [assetMergedRate_cons]
    by_cases hc : pyLower cfg.source = pyLower g.name
        ∧ pyTruthy (g.get_price a) = true
    · rw [if_pos hc, h g (List.mem_cons_self _ _) hc.1 hc.2]
      exact ih v fun g' hg' => h g' (List.mem_cons_of_mem _ hg')
    · rw [if_neg hc]
      exact ih v fun g' hg' => h g' (List.mem_cons_of_mem _ hg')

/-- If `f` is the only feed matching the asset's source and its price is
truthy, the fold ends at `f`'s price. -/
theorem assetMergedRate_overwrite {a : String} {cfg : SourceConfig}
    (feeds : List DataFeed) (f : DataFeed) (hf : f ∈ feeds)
    (huniq : ∀ g ∈ feeds, pyLower cfg.source = pyLower g.name → g = f)
    (hmatch : pyLower cfg.source = pyLower f.name)
    (htruthy : pyTruthy (f.get_price a) = true) (prev : Option PFloat) :
    assetMergedRate feeds a cfg prev = f.get_price a := by
  obtain ⟨m₁, m₂, hfe⟩ := List.append_of_mem hf
  subst hfe
  rw [assetMergedRate_append, assetMergedRate_cons, if_pos ⟨hmatch, htruthy⟩]
  exact assetMergedRate_const m₂ _ fun g hg hgm _ => by
    rw [huniq g (List.mem_append_right _ (List.mem_cons_of_mem _ hg)) hgm]

/-- One full refresh cycle computes, per asset, exactly the
`assetMergedRate` fold over all registered feeds. -/
theorem foldl_refreshFeed_get (sh : Bool) {gc : PyDict SourceConfig}
    {a : String} {cfg : SourceConfig}
    (hnodup : (gc.map Prod.fst).Nodup)
    (hupper : ∀ k ∈ gc.map Prod.fst, pyUpper k = k)
    (hmem : (a, cfg) ∈ gc) :
    ∀ (feeds : List DataFeed) (acc : PyDict PFloat × Bool × List LogEvent),
    pyGet (feeds.foldl (refreshFeed sh gc) acc).1 a
      = assetMergedRate feeds a cfg (pyGet acc.1 a) := by
  intro feeds
  induction feeds with
  | nil => intro acc; rfl
  | cons f t ih =>
    intro acc
    rw [List.foldl_cons, ih, assetMergedRate_cons]
    congr 1
    exact foldl_refreshStep_get sh f hnodup hupper hmem acc

/-- The inner loop records the error bit when the feed matches the
asset's source but the price is falsy. -/
theorem innerFold_err_set (sh : Bool) (f : DataFeed) {gc : PyDict SourceConfig}
    {a : String} {cfg : SourceConfig} (hmem : (a, cfg) ∈ gc)
    (ha : pyUpper a = a) (hmatch : pyLower cfg.source = pyLower f.name)
    (hfalse : pyTruthy (f.get_price a) = false)
    (acc : PyDict PFloat × Bool × List LogEvent) :
    (gc.foldl (refreshStep sh f) acc).2.1 = true := by
  obtain ⟨l₁, l₂, hgc⟩ := List.append_of_mem hmem
  rw [hgc, List.foldl_append, List.foldl_cons]
  refine foldl_refreshStep_err_mono sh f l₂ _ ?_
  unfold refreshStep
  simp [hmatch, ha, hfalse]

theorem foldl_refreshFeed_err_mono (sh : Bool) (gc : PyDict SourceConfig)
    (feeds : List DataFeed) (acc : PyDict PFloat × Bool × List LogEvent)
    (h : acc.2.1 = true) :
    (feeds.foldl (refreshFeed sh gc) acc).2.1 = true := by
  induction feeds generalizing acc with
  | nil => exact h
  | cons g t ih =>
    rw [List.foldl_cons]
    exact ih _ (foldl_refreshStep_err_mono sh g gc acc h)

/-- A matching feed with a falsy price makes the whole cycle record an
error. -/
theorem foldl_refreshFeed_err_set (sh : Bool) {gc : PyDict SourceConfig}
    {a : String} {cfg : SourceConfig} (hmem : (a, cfg) ∈ gc)
    (ha : pyUpper a = a) (feeds : List DataFeed)
    (acc : PyDict PFloat × Bool × List LogEvent) (f : DataFeed)
    (hf : f ∈ feeds) (hmatch : pyLower cfg.source = pyLower f.name)
    (hfalse : pyTruthy (f.get_price a) = false) :
    (feeds.foldl (refreshFeed sh gc) acc).2.1 = true := by
  obtain ⟨m₁, m₂, hfe⟩ := List.append_of_mem hf
  rw [hfe, List.foldl_append, List.foldl_cons]
  exact foldl_refreshFeed_err_mono sh gc m₂ _
    (innerFold_err_set sh f hmem ha hmatch hfalse _)

/-!
## Claim C1
-/

/-- Claim C1 (amended): during a refresh cycle, for every asset of
`globalConfig` (keys distinct and uppercased, as `init_config` produces
them), the new `MergedRates[a]` is the fold over all registered providers
in order, where each provider whose name matches the asset's configured
source case-insensitively overwrites the value with its price when that
price is present and truthy (non-`None`, nonzero; NaN counts as truthy)
and leaves it untouched otherwise, and non-matching providers never touch
the entry.  In particular: if no provider matches, or every matching
provider's price is absent or falsy (`None` or `0.0`), `MergedRates[a]`
keeps its previous value; if exactly one provider matches and its price
is truthy, `MergedRates[a]` is overwritten with that price; and any
matching provider with an absent or falsy price records the per-asset
not-found condition (the suppression flag comes out false). -/
theorem c1_refresh_amended (s : ErcState) (a : String) (cfg : SourceConfig)
    (hnodup : (s.globalConfig.map Prod.fst).Nodup)
    (hupper : ∀ k ∈ s.globalConfig.map Prod.fst, pyUpper k = k)
    (hmem : (a, cfg) ∈ s.globalConfig) :
    pyGet (update_exchange_rates_from_data_feeds s).1.exchangeRate a
      = assetMergedRate s.dataFeeds a cfg (pyGet s.exchangeRate a)
    ∧ ((∀ f ∈ s.dataFeeds, pyLower cfg.source ≠ pyLower f.name) →
        pyGet (update_exchange_rates_from_data_feeds s).1.exchangeRate a
          = pyGet s.exchangeRate a)
    ∧ ((∀ f ∈ s.dataFeeds, pyLower cfg.source = pyLower f.name →
          pyTruthy (f.get_price a) = false) →
        pyGet (update_exchange_rates_from_data_feeds s).1.exchangeRate a
          = pyGet s.exchangeRate a)
    ∧ (∀ f ∈ s.dataFeeds,
        (∀ g ∈ s.dataFeeds, pyLower cfg.source = pyLower g.name → g = f) →
        pyLower cfg.source = pyLower f.name →
        pyTruthy (f.get_price a) = true →
        pyGet (update_exchange_rates_from_data_feeds s).1.exchangeRate a
          = f.get_price a)
    ∧ (∀ f ∈ s.dataFeeds, pyLower cfg.source = pyLower f.name →
        pyTruthy (f.get_price a) = false →
        (update_exchange_rates_from_data_feeds s).1.showUpdateErrors = false) := by
  have ha : pyUpper a = a := hupper a (List.mem_map_of_mem _ hmem)
  have hmain : pyGet (update_exchange_rates_from_data_feeds s).1.exchangeRate a
      = assetMergedRate s.dataFeeds a cfg (pyGet s.exchangeRate a) := by
    rw [update_rates_eq]
    exact foldl_refreshFeed_get s.showUpdateErrors hnodup hupper hmem s.dataFeeds _
  refine ⟨hmain, ?_, ?_, ?_, ?_⟩
  · intro h
    rw [hmain]
    exact assetMergedRate_const s.dataFeeds _
      fun g hg hgm => absurd hgm (h g hg)
  · intro h
    rw [hmain]
    exact assetMergedRate_const s.dataFeeds _
      fun g hg hgm hgt => absurd hgt (by simp [h g hg hgm])
  · intro f hf huniq hmatch htruthy
    rw [hmain]
    exact assetMergedRate_overwrite s.dataFeeds f hf huniq hmatch htruthy _
  · intro f hf hmatch hfalse
    rw [update_flag_eq,
      if_pos (foldl_refreshFeed_err_set s.showUpdateErrors hmem ha s.dataFeeds _
        f hf hmatch hfalse)]

/-- A feed whose snapshot carries the price 42 for BTC. -/
def feed42 : DataFeed := ⟨"feedX", [("BTC", .num 42)]⟩

/-- A feed whose snapshot carries the price 0.0 for BTC. -/
def feedZero : DataFeed := ⟨"feedX", [("BTC", .num 0)]⟩

/-- A state that cached BTC = 42 from a first refresh; the feed now
reports BTC = 0.0. -/
def stateC1 : ErcState :=
  { (update_exchange_rates_from_data_feeds
      (mkInitState [("BTC", "feedX")] [] [feed42])).1 with dataFeeds := [feedZero] }

/-- Counterexample to C1 as stated: the price 0.0 for BTC is present in
the provider's snapshot, yet the refresh does not overwrite
`MergedRates[BTC]` with it — Python truthiness treats `0.0` as "not
found" and the stale 42 is kept. -/
theorem c1_counterexample :
    feedZero.get_price "BTC" = some (.num 0)
    ∧ pyGet (update_exchange_rates_from_data_feeds stateC1).1.exchangeRate "BTC"
        = some (.num 42)
    ∧ pyGet (update_exchange_rates_from_data_feeds stateC1).1.exchangeRate "BTC"
        ≠ some (.num 0) := by
  decide

/-- A feed registered alongside `feed42` whose name does not match BTC's
configured source. -/
def feedOtherY : DataFeed := ⟨"feedY", [("BTC", .num 7)]⟩

/-- A two-provider state: BTC's source names `feedX` (= `feed42`), while
`feedY` also carries a BTC price. -/
def stateC1w : ErcState :=
  mkInitState [("BTC", "feedX")] [] [feedOtherY, feed42]

/-- Witness for C1: in a two-provider cycle, the unique matching provider
(`feedX`) overwrites BTC's NaN default with its truthy price 42; the
non-matching provider's price 7 is ignored. -/
theorem c1_witness :
    pyGet (update_exchange_rates_from_data_feeds stateC1w).1.exchangeRate "BTC"
      = some (.num 42) :=
  (c1_refresh_amended stateC1w "BTC" ⟨.nan, "feedX"⟩ (by decide) (by decide)
    (by decide)).2.2.2.1 feed42 (by decide) (by decide) (by decide) (by decide)

/-!
## Wait-till-ready lemmas (for claim C8)
-/

theorem waitStep_flag_false {ready : String → Bool}
    {acc : Bool × List LogEvent} (f : DataFeed) (h : acc.1 = false) :
    waitStep ready acc f = acc := by
  unfold waitStep
  by_cases h1 : ready f.name = true <;> simp [h1, h]

theorem foldl_waitStep_flag_false {ready : String → Bool}
    (feeds : List DataFeed) {acc : Bool × List LogEvent} (h : acc.1 = false) :
    feeds.foldl (waitStep ready) acc = acc := by
  induction feeds with
  | nil => rfl
  | cons g t ih => rw [List.foldl_cons, waitStep_flag_false g h, ih]

theorem waitStep_flag_mono {ready : String → Bool}
    {acc : Bool × List LogEvent} {f : DataFeed}
    (h : (waitStep ready acc f).1 = true) : acc.1 = true := by
  unfold waitStep at h
  by_cases h1 : ready f.name = true
  · simp [h1] at h
    exact h
  · by_cases h2 : acc.1 = true
    · exact h2
    · simp [h1, h2] at h

theorem foldl_waitStep_flag_mono {ready : String → Bool}
    (feeds : List DataFeed) {acc : Bool × List LogEvent}
    (h : (feeds.foldl (waitStep ready) acc).1 = true) : acc.1 = true := by
  induction feeds generalizing acc with
  | nil => exact h
  | cons g t ih =>
    rw [List.foldl_cons] at h
    exact waitStep_flag_mono (ih h)

theorem waitStep_Q {ready : String → Bool} {acc : Bool × List LogEvent}
    (f : DataFeed)
    (h : (acc.1 = true → acc.2 = []) ∧ acc.2.length ≤ 1) :
    ((waitStep ready acc f).1 = true → (waitStep ready acc f).2 = [])
    ∧ (waitStep ready acc f).2.length ≤ 1 := by
  unfold waitStep
  by_cases h1 : ready f.name = true
  · simpa [h1] using h
  · by_cases h2 : acc.1 = true
    · simp [h1, h2, h.1 h2]
  
    · simpa [h1, h2] using h

theorem foldl_waitStep_Q {ready : String → Bool} (feeds : List DataFeed)
    {acc : Bool × List LogEvent}
    (h : (acc.1 = true → acc.2 = []) ∧ acc.2.length ≤ 1) :
    ((feeds.foldl (waitStep ready) acc).1 = true →
      (feeds.foldl (waitStep ready) acc).2 = [])
    ∧ (feeds.foldl (waitStep ready) acc).2.length ≤ 1 := by
  induction feeds generalizing acc with
  | nil => exact h
  | cons g t ih =>
    rw [List.foldl_cons]
    exact ih (waitStep_Q g h)

theorem waitStep_logs_ne {ready : String → Bool} {acc : Bool × List LogEvent}
    (f : DataFeed) (h : acc.2 ≠ []) : (waitStep ready acc f).2 ≠ [] := by
  unfold waitStep
  by_cases h1 : ready f.name = true
  · simpa [h1] using h
  · by_cases h2 : acc.1 = true
    · simp [h1, h2]
    · simpa [h1, h2] using h

theorem foldl_waitStep_logs_ne {ready : String → Bool} (feeds : List DataFeed)
    {acc : Bool × List LogEvent} (h : acc.2 ≠ []) :
    (feeds.foldl (waitStep ready) acc).2 ≠ [] := by
  induction feeds generalizing acc with
  | nil => exact h
  | cons g t ih => rw [List.foldl_cons]; exact ih (waitStep_logs_ne g h)

theorem foldl_waitStep_first {ready : String → Bool} (feeds : List DataFeed) :
    ∀ (acc : Bool × List LogEvent) (f : DataFeed),
    (acc.1 = true ∨ acc.2 ≠ []) → f ∈ feeds → ready f.name = false →
    (feeds.foldl (waitStep ready) acc).2 ≠ [] := by
  induction feeds with
  | nil => intro acc f _ hf; simp at hf
  | cons g t ih =>
    intro acc f hinv hf hr
    rw [List.foldl_cons]
    rcases List.mem_cons.mp hf with he | hft
    · subst he
      by_cases h2 : acc.1 = true
      · have : (waitStep ready acc f).2 = acc.2 ++ [LogEvent.feedInitError f.name] := by
          unfold waitStep
          simp [hr, h2]
        exact foldl_waitStep_logs_ne t (by rw [this]; simp)
      · have hlogs : acc.2 ≠ [] := by
          rcases hinv with h | h
          · exact absurd h h2
          · exact h
        exact foldl_waitStep_logs_ne t (waitStep_logs_ne f hlogs)
    · refine ih _ f ?_ hft hr
      unfold waitStep
      by_cases h1 : ready g.name = true
      · simpa [h1] using hinv
      · by_cases h2 : acc.1 = true
        · right; simp [h1, h2]
        · simpa [h1, h2] using hinv

/-!
## Update-loop suppression lemmas (for claim C8)
-/

theorem refreshStep_logs_sh_false (f : DataFeed)
    (acc : PyDict PFloat × Bool × List LogEvent) (kv : String × SourceConfig) :
    (refreshStep false f acc kv).2.2 = acc.2.2 := by
  unfold refreshStep
  by_cases h1 : pyLower kv.2.source = pyLower f.name
  · by_cases h2 : pyTruthy (f.get_price (pyUpper kv.1)) = true
    · simp [h1, h2]
    · simp [h1, h2]
  · simp [h1]

theorem foldl_refreshStep_logs_sh_false (f : DataFeed) (gc : PyDict SourceConfig)
    (acc : PyDict PFloat × Bool × List LogEvent) :
    (gc.foldl (refreshStep false f) acc).2.2 = acc.2.2 := by
  induction gc generalizing acc with
  | nil => rfl
  | cons hd t ih =>
    rw [List.foldl_cons, ih, refreshStep_logs_sh_false]

theorem foldl_refreshFeed_logs_sh_false (feeds : List DataFeed)
    (gc : PyDict SourceConfig) (acc : PyDict PFloat × Bool × List LogEvent) :
    (feeds.foldl (refreshFeed false gc) acc).2.2 = acc.2.2 := by
  induction feeds generalizing acc with
  | nil => rfl
  | cons g t ih =>
    rw [List.foldl_cons, ih, refreshFeed, foldl_refreshStep_logs_sh_false]

theorem refreshStep_err_logs (f : DataFeed)
    (acc : PyDict PFloat × Bool × List LogEvent) (kv : String × SourceConfig)
    (hP : acc.2.1 = true → acc.2.2 ≠ []) :
    (refreshStep true f acc kv).2.1 = true → (refreshStep true f acc kv).2.2 ≠ [] := by
  unfold refreshStep
  by_cases h1 : pyLower kv.2.source = pyLower f.name
  · by_cases h2 : pyTruthy (f.get_price (pyUpper kv.1)) = true
    · simpa [h1, h2] using hP
    · simp [h1, h2]
  · simpa [h1] using hP

theorem foldl_refreshStep_err_logs (f : DataFeed) (gc : PyDict SourceConfig)
    (acc : PyDict PFloat × Bool × List LogEvent)
    (hP : acc.2.1 = true → acc.2.2 ≠ []) :
    (gc.foldl (refreshStep true f) acc).2.1 = true →
    (gc.foldl (refreshStep true f) acc).2.2 ≠ [] := by
  induction gc generalizing acc with
  | nil => exact hP
  | cons hd t ih =>
    rw [List.foldl_cons]
    exact ih _ (refreshStep_err_logs f acc hd hP)

theorem foldl_refreshFeed_err_logs (feeds : List DataFeed)
    (gc : PyDict SourceConfig) (acc : PyDict PFloat × Bool × List LogEvent)
    (hP : acc.2.1 = true → acc.2.2 ≠ []) :
    (feeds.foldl (refreshFeed true gc) acc).2.1 = true →
    (feeds.foldl (refreshFeed true gc) acc).2.2 ≠ [] := by
  induction feeds generalizing acc with
  | nil => exact hP
  | cons g t ih =>
    rw [List.foldl_cons]
    exact ih _ (foldl_refreshStep_err_logs g gc acc hP)

theorem refreshStep_logs_imp_err (sh : Bool) (f : DataFeed)
    (acc : PyDict PFloat × Bool × List LogEvent) (kv : String × SourceConfig)
    (h : acc.2.2 ≠ [] → acc.2.1 = true) :
    (refreshStep sh f acc kv).2.2 ≠ [] → (refreshStep sh f acc kv).2.1 = true := by
  unfold refreshStep
  by_cases h1 : pyLower kv.2.source = pyLower f.name
  · by_cases h2 : pyTruthy (f.get_price (pyUpper kv.1)) = true
    · simp only [h1, if_pos, h2, if_true]
      exact h
    · intro _
      simp [h1, h2]
  · simp only [h1, if_neg, ite_false]
    exact h

theorem foldl_refreshStep_logs_imp_err (sh : Bool) (f : DataFeed)
    (gc : PyDict SourceConfig) (acc : PyDict PFloat × Bool × List LogEvent)
    (h : acc.2.2 ≠ [] → acc.2.1 = true) :
    (gc.foldl (refreshStep sh f) acc).2.2 ≠ [] →
    (gc.foldl (refreshStep sh f) acc).2.1 = true := by
  induction gc generalizing acc with
  | nil => exact h
  | cons hd t ih =>
    rw [List.foldl_cons]
    exact ih _ (refreshStep_logs_imp_err sh f acc hd h)

theorem foldl_refreshFeed_logs_imp_err (sh : Bool) (gc : PyDict SourceConfig)
    (feeds : List DataFeed) (acc : PyDict PFloat × Bool × List LogEvent)
    (h : acc.2.2 ≠ [] → acc.2.1 = true) :
    (feeds.foldl (refreshFeed sh gc) acc).2.2 ≠ [] →
    (feeds.foldl (refreshFeed sh gc) acc).2.1 = true := by
  induction feeds generalizing acc with
  | nil => exact h
  | cons g t ih =>
    rw [List.foldl_cons]
    exact ih _ (foldl_refreshStep_logs_imp_err sh g gc acc h)

theorem refreshStep_logs_mem (sh : Bool) (f : DataFeed)
    (acc : PyDict PFloat × Bool × List LogEvent) (kv : String × SourceConfig)
    {x : LogEvent} (h : x ∈ acc.2.2) : x ∈ (refreshStep sh f acc kv).2.2 := by
  unfold refreshStep
  by_cases h1 : pyLower kv.2.source = pyLower f.name
  · by_cases h2 : pyTruthy (f.get_price (pyUpper kv.1)) = true
    · simpa [h1, h2] using h
    · by_cases h3 : sh = true <;> simp [h1, h2, h3, h]
  · simpa [h1] using h

theorem foldl_refreshStep_logs_mem (sh : Bool) (f : DataFeed)
    (gc : PyDict SourceConfig) (acc : PyDict PFloat × Bool × List LogEvent)
    {x : LogEvent} (h : x ∈ acc.2.2) :
    x ∈ (gc.foldl (refreshStep sh f) acc).2.2 := by
  induction gc generalizing acc with
  | nil => exact h
  | cons hd t ih =>
    rw [List.foldl_cons]
    exact ih _ (refreshStep_logs_mem sh f acc hd h)

theorem foldl_refreshFeed_logs_mem (sh : Bool) (gc : PyDict SourceConfig)
    (feeds : List DataFeed) (acc : PyDict PFloat × Bool × List LogEvent)
    {x : LogEvent} (h : x ∈ acc.2.2) :
    x ∈ (feeds.foldl (refreshFeed sh gc) acc).2.2 := by
  induction feeds generalizing acc with
  | nil => exact h
  | cons g t ih =>
    rw [List.foldl_cons]
    exact ih _ (foldl_refreshStep_logs_mem sh g gc acc h)

/-- With the suppression flag still true, the inner loop emits the
not-found report for a configured asset that the matching feed misses. -/
theorem innerFold_event (f : DataFeed) {gc : PyDict SourceConfig} {a : String}
    {cfg : SourceConfig} (hmem : (a, cfg) ∈ gc)
    (hmatch : pyLower cfg.source = pyLower f.name)
    (hfalse : pyTruthy (f.get_price (pyUpper a)) = false)
    (acc : PyDict PFloat × Bool × List LogEvent) :
    LogEvent.assetNotFound (pyUpper a) f.name
      ∈ (gc.foldl (refreshStep true f) acc).2.2 := by
  obtain ⟨l₁, l₂, hgc⟩ := List.append_of_mem hmem
  rw [hgc, List.foldl_append, List.foldl_cons]
  refine foldl_refreshStep_logs_mem true f l₂ _ ?_
  have hstep : (refreshStep true f (l₁.foldl (refreshStep true f) acc) (a, cfg)).2.2
      = (l₁.foldl (refreshStep true f) acc).2.2
          ++ [LogEvent.assetNotFound (pyUpper a) f.name] := by
    unfold refreshStep
    simp [hmatch, hfalse]
  rw [hstep]
  simp

/-- With the suppression flag still true, the whole cycle emits the
not-found report for every configured asset that its matching feed
misses. -/
theorem foldl_refreshFeed_event {gc : PyDict SourceConfig} {a : String}
    {cfg : SourceConfig} (hmem : (a, cfg) ∈ gc) (feeds : List DataFeed)
    (acc : PyDict PFloat × Bool × List LogEvent) (f : DataFeed)
    (hf : f ∈ feeds) (hmatch : pyLower cfg.source = pyLower f.name)
    (hfalse : pyTruthy (f.get_price (pyUpper a)) = false) :
    LogEvent.assetNotFound (pyUpper a) f.name
      ∈ (feeds.foldl (refreshFeed true gc) acc).2.2 := by
  obtain ⟨m₁, m₂, hfe⟩ := List.append_of_mem hf
  rw [hfe, List.foldl_append, List.foldl_cons]
  exact foldl_refreshFeed_logs_mem true gc m₂ _
    (innerFold_event f hmem hmatch hfalse _)

/-!
## Claim C8
-/

/-- Claim C8 (amended): readiness-timeout reports are suppressed per
occurrence — at most one report per `wait_till_ready` call, none once the
flag is false, at least one when the flag is still true and some feed
times out, any call that reports flips the flag to false, and the flag
never returns to true (so at most one report per process lifetime).
Lookup-miss reports are suppressed per refresh cycle — none once the flag
is false; within a cycle that starts with the flag true, EVERY configured
asset missed by its matching feed is reported (the correction: the second
and later misses of the first erroring cycle also report); a cycle that
reports flips the flag to false, so later cycles report nothing; and the
flag never returns to true.  Neither operation touches the other class's
flag. -/
theorem c8_suppression_amended (s : ErcState) (ready : String → Bool) :
    ((wait_till_ready s ready).2.length ≤ 1)
    ∧ (s.showWaitErrors = false → (wait_till_ready s ready).2 = []
        ∧ (wait_till_ready s ready).1.showWaitErrors = false)
    ∧ (s.showWaitErrors = true → ∀ f ∈ s.dataFeeds, ready f.name = false →
        (wait_till_ready s ready).2 ≠ [])
    ∧ ((wait_till_ready s ready).1.showWaitErrors = true →
        s.showWaitErrors = true)
    ∧ (s.showUpdateErrors = false →
        (update_exchange_rates_from_data_feeds s).2 = []
        ∧ (update_exchange_rates_from_data_feeds s).1.showUpdateErrors = false)
    ∧ (s.showUpdateErrors = true →
        (update_exchange_rates_from_data_feeds s).1.showUpdateErrors = false →
        (update_exchange_rates_from_data_feeds s).2 ≠ [])
    ∧ ((update_exchange_rates_from_data_feeds s).1.showUpdateErrors = true →
        s.showUpdateErrors = true)
    ∧ ((update_exchange_rates_from_data_feeds s).1.showWaitErrors
        = s.showWaitErrors)
    ∧ ((wait_till_ready s ready).1.showUpdateErrors = s.showUpdateErrors)
    ∧ ((wait_till_ready s ready).2 ≠ [] →
        (wait_till_ready s ready).1.showWaitErrors = false)
    ∧ ((update_exchange_rates_from_data_feeds s).2 ≠ [] →
        (update_exchange_rates_from_data_feeds s).1.showUpdateErrors = false)
    ∧ (s.showUpdateErrors = true →
        ∀ (a : String) (cfg : SourceConfig), (a, cfg) ∈ s.globalConfig →
        ∀ f ∈ s.dataFeeds, pyLower cfg.source = pyLower f.name →
        pyTruthy (f.get_price (pyUpper a)) = false →
        LogEvent.assetNotFound (pyUpper a) f.name
          ∈ (update_exchange_rates_from_data_feeds s).2) := by
  refine ⟨?_, ?_, ?_, ?_, ?_, ?_, ?_, rfl, rfl, ?_, ?_, ?_⟩
  · exact (foldl_waitStep_Q s.dataFeeds (by constructor <;> simp)).2
  · intro h
    constructor
    · show (s.dataFeeds.foldl (waitStep ready) (s.showWaitErrors, [])).2 = []
      rw [h, foldl_waitStep_flag_false s.dataFeeds rfl]
    · show (s.dataFeeds.foldl (waitStep ready) (s.showWaitErrors, [])).1 = false
      rw [h, foldl_waitStep_flag_false s.dataFeeds rfl]
  · intro h f hf hr
    exact foldl_waitStep_first s.dataFeeds (s.showWaitErrors, []) f
      (by left; exact h) hf hr
  · intro h
    exact foldl_waitStep_flag_mono s.dataFeeds h
  · intro h
    constructor
    · show (s.dataFeeds.foldl (refreshFeed s.showUpdateErrors s.globalConfig)
          (s.exchangeRate, false, [])).2.2 = []
      rw [h, foldl_refreshFeed_logs_sh_false]
    · show (if _ = true then false else s.showUpdateErrors) = false
      rw [h]
      split <;> rfl
  · intro hs hflip
    have herr : (s.dataFeeds.foldl (refreshFeed s.showUpdateErrors s.globalConfig)
        (s.exchangeRate, false, ([] : List LogEvent))).2.1 = true := by
      by_contra hne
      have : (update_exchange_rates_from_data_feeds s).1.showUpdateErrors
          = s.showUpdateErrors := by
        show (if _ = true then false else s.showUpdateErrors) = s.showUpdateErrors
        rw [if_neg hne]
      rw [hflip] at this
      rw [← this] at hs
      cases hs
    show (s.dataFeeds.foldl (refreshFeed s.showUpdateErrors s.globalConfig)
        (s.exchangeRate, false, [])).2.2 ≠ []
    rw [hs] at herr ⊢
    exact foldl_refreshFeed_err_logs s.dataFeeds s.globalConfig _ (by simp) herr
  · intro h
    by_cases hc : (s.dataFeeds.foldl (refreshFeed s.showUpdateErrors s.globalConfig)
        (s.exchangeRate, false, ([] : List LogEvent))).2.1 = true
    · exfalso
      have : (update_exchange_rates_from_data_feeds s).1.showUpdateErrors = false := by
        show (if _ = true then false else s.showUpdateErrors) = false
        rw [if_pos hc]
      rw [h] at this
      cases this
    · have : (update_exchange_rates_from_data_feeds s).1.showUpdateErrors
          = s.showUpdateErrors := by
        show (if _ = true then false else s.showUpdateErrors) = s.showUpdateErrors
        rw [if_neg hc]
      rw [← this, h]
  · intro hlogs
    show (s.dataFeeds.foldl (waitStep ready) (s.showWaitErrors, [])).1 = false
    cases hv : (s.dataFeeds.foldl (waitStep ready) (s.showWaitErrors, [])).1
    · rfl
    · exact absurd
        ((foldl_waitStep_Q s.dataFeeds (by constructor <;> simp)).1 hv) hlogs
  · intro hlogs
    have herr := foldl_refreshFeed_logs_imp_err s.showUpdateErrors s.globalConfig
      s.dataFeeds (s.exchangeRate, false, []) (fun hc => absurd rfl hc) hlogs
    rw [update_flag_eq, if_pos herr]
  · intro hs a cfg hmem f hf hmatch hfalse
    rw [update_logs_eq, hs]
    exact foldl_refreshFeed_event hmem s.dataFeeds _ f hf hmatch hfalse

/-- A state whose single feed has no data for either configured asset. -/
def stateC8 : ErcState :=
  mkInitState [("AAA", "feedX"), ("BBB", "feedX")] [] [⟨"feedX", []⟩]

/-- Counterexample to C8 as stated: in the first refresh cycle two
occurrences of the per-asset lookup-miss condition are reported — the
second occurrence of the class does produce a user-visible report. -/
theorem c8_counterexample :
    stateC8.showUpdateErrors = true
    ∧ (update_exchange_rates_from_data_feeds stateC8).2
        = [.assetNotFound "AAA" "feedX", .assetNotFound "BBB" "feedX"] := by
  decide

/-- A state with one feed, used to exercise the readiness gate. -/
def stateW : ErcState := mkInitState [] [] [⟨"feedY", []⟩]

/-- Witness for C8: with the flag still true and a feed that never
becomes ready, exactly one warning is emitted (at least one, at most
one), a second call (flag now false) emits none, and in an erroring
refresh cycle with the flag still true the miss of asset AAA produces its
report. -/
theorem c8_witness :
    (wait_till_ready stateW (fun _ => false)).2.length ≤ 1
    ∧ (wait_till_ready stateW (fun _ => false)).2 ≠ []
    ∧ (wait_till_ready { stateW with showWaitErrors := false }
        (fun _ => false)).2 = []
    ∧ LogEvent.assetNotFound (pyUpper "AAA") "feedX"
        ∈ (update_exchange_rates_from_data_feeds stateC8).2 :=
  ⟨(c8_suppression_amended stateW (fun _ => false)).1,
   (c8_suppression_amended stateW (fun _ => false)).2.2.1 rfl ⟨"feedY", []⟩
     (by decide) rfl,
   ((c8_suppression_amended { stateW with showWaitErrors := false }
     (fun _ => false)).2.1 rfl).1,
   (c8_suppression_amended stateC8 (fun _ => false)).2.2.2.2.2.2.2.2.2.2.2 rfl
     "AAA" ⟨.nan, "feedX"⟩ (by decide) ⟨"feedX", []⟩ (by decide) (by decide)
     (by decide)⟩

/-!
## Raw-config lemmas (for claim C9)
-/

theorem optionMapList_mem {β γ : Type} (f : β → Option γ) :
    ∀ (l : List β) (out : List γ), optionMapList f l = some out →
    ∀ y ∈ out, ∃ x ∈ l, f x = some y := by
  intro l
  induction l with
  | nil =>
    intro out h y hy
    simp only [optionMapList, Option.some_inj] at h
    subst h
    simp at hy
  | cons x t ih =>
    intro out h y hy
    simp only [optionMapList] at h
    cases hfx : f x with
    | none => rw [hfx] at h; cases h
    | some y1 =>
      cases ht : optionMapList f t with
      | none => rw [hfx, ht] at h; cases h
      | some ys =>
        rw [hfx, ht, Option.some_inj] at h
        subst h
        rcases List.mem_cons.mp hy with he | hys
        · exact ⟨x, List.mem_cons_self _ _, he ▸ hfx⟩
        · obtain ⟨x', hx', hfx'⟩ := ih ys ht y hys
          exact ⟨x', List.mem_cons_of_mem _ hx', hfx'⟩

theorem optionMapList_isSome {β γ : Type} (f : β → Option γ) :
    ∀ (l : List β), (∀ x ∈ l, (f x).isSome = true) →
    (optionMapList f l).isSome = true := by
  intro l
  induction l with
  | nil => intro _; rfl
  | cons x t ih =>
    intro h
    have hx := h x (List.mem_cons_self _ _)
    rw [Option.isSome_iff_exists] at hx
    obtain ⟨y, hy⟩ := hx
    have ht := ih (fun z hz => h z (List.mem_cons_of_mem _ hz))
    rw [Option.isSome_iff_exists] at ht
    obtain ⟨ys, hys⟩ := ht
    simp [optionMapList, hy, hys]

theorem parseConvRow_dflt {row : List RawVal} {kv : String × RawCfg}
    (h : parseConvRow row = some kv) : kv.2.dflt.isSome = true := by
  unfold parseConvRow at h
  split at h
  · rw [Option.some_inj] at h
    subst h
    rfl
  · cases h

theorem parseFetchRow_dflt {row : List RawVal} {kv : String × RawCfg}
    (h : parseFetchRow row = some kv) : kv.2.dflt.isSome = true := by
  unfold parseFetchRow at h
  split at h
  · rw [Option.some_inj] at h
    subst h
    rfl
  · cases h

theorem ratesOf_isSome {d : PyDict RawCfg}
    (h : ∀ kv ∈ d, kv.2.dflt.isSome = true) : (ratesOf d).isSome = true := by
  have h1 : (optionMapList
      (fun (kv : String × RawCfg) => kv.2.dflt.map fun v => (kv.1, v)) d).isSome
      = true := by
    refine optionMapList_isSome _ d fun kv hkv => ?_
    have h2 := h kv hkv
    rw [Option.isSome_iff_exists] at h2 ⊢
    obtain ⟨v, hv⟩ := h2
    exact ⟨(kv.1, v), by rw [hv]; rfl⟩
  rw [Option.isSome_iff_exists] at h1
  obtain ⟨r, hr⟩ := h1
  unfold ratesOf
  rw [hr]
  rfl

/-!
## Claim C9
-/

/-- Claim C9 (amended): a malformed config list (row of wrong arity, or a
non-string asset key) raises inside the parsing comprehensions, before
any assignment, so the error is caught and logged and the entire prior
state — config mappings and merged rates — is retained.  A malformed
override entry (missing its `"default"` key) raises only while deriving
the rates, after `_exchange_rate_config` has already been replaced: the
error is still caught and logged and the merged rate table is retained,
but the config mappings are not (the correction).  A non-numeric default
is not an error at all: resolution succeeds, logs nothing, and installs
the value verbatim. -/
theorem c9_init_config_amended :
    (∀ (s : RawConfigState) (fetcher conv : List (List RawVal)),
      optionMapList parseConvRow conv = none
        ∨ optionMapList parseFetchRow fetcher = none →
      init_config_raw_lists s fetcher conv = (s, true))
    ∧ (∀ (s : RawConfigState) (ov_cr ov_gc : PyDict RawCfg),
      ratesOf (pyMerge (upperKeys ov_gc) (upperKeys ov_cr)) = none →
      (init_config_raw_override s ov_cr ov_gc).1.exchangeRate = s.exchangeRate
      ∧ (init_config_raw_override s ov_cr ov_gc).1.conversionRequired
          = upperKeys ov_cr
      ∧ (init_config_raw_override s ov_cr ov_gc).2 = true)
    ∧ (∀ (s : RawConfigState) (fetcher conv : List (List RawVal))
        (crL gcL : List (String × RawCfg)),
      optionMapList parseConvRow conv = some crL →
      optionMapList parseFetchRow fetcher = some gcL →
      (init_config_raw_lists s fetcher conv).2 = false) := by
  refine ⟨?_, ?_, ?_⟩
  · intro s fetcher conv h
    rcases h with h | h
    · simp [init_config_raw_lists, h]
    · cases hc : optionMapList parseConvRow conv with
      | none => simp [init_config_raw_lists, hc]
      | some crL => simp [init_config_raw_lists, hc, h]
  · intro s ov_cr ov_gc h
    refine ⟨?_, ?_, ?_⟩ <;> simp [init_config_raw_override, rawResolve, h]
  · intro s fetcher conv crL gcL hconv hfetch
    have hvals : ∀ kv ∈ pyMerge (upperKeys (pyDictOf gcL)) (upperKeys (pyDictOf crL)),
        kv.2.dflt.isSome = true := by
      intro kv hkv
      rcases mem_foldl_pyInsert hkv with hg | hc
      · obtain ⟨kv', hkv', he⟩ := mem_upperKeys hg
        obtain ⟨row, _, hrow⟩ :=
          optionMapList_mem parseFetchRow fetcher gcL hfetch kv' (mem_pyDictOf hkv')
        have := parseFetchRow_dflt hrow
        rw [he]
        exact this
      · obtain ⟨kv', hkv', he⟩ := mem_upperKeys hc
        obtain ⟨row, _, hrow⟩ :=
          optionMapList_mem parseConvRow conv crL hconv kv' (mem_pyDictOf hkv')
        have := parseConvRow_dflt hrow
        rw [he]
        exact this
    have hsome := ratesOf_isSome hvals
    rw [Option.isSome_iff_exists] at hsome
    obtain ⟨r, hr⟩ := hsome
    simp [init_config_raw_lists, hconv, hfetch, rawResolve, hr]

/-- Prior raw state, to exhibit what `init_config` keeps on error. -/
def rawPrior : RawConfigState :=
  ⟨[("OLD", ⟨some (.flt (.num 2)), some (.str "f")⟩)],
   [("OLD", ⟨some (.flt (.num 2)), some (.str "f")⟩)],
   [("OLD", .flt (.num 5))]⟩

/-- Counterexample to C9 as stated: (i) a malformed override (entry
missing its `"default"` key) is caught and logged, but the config
mappings are replaced — only the merged rates survive, so the prior state
is not retained in its entirety; (ii) a non-numeric default raises no
error at all and replaces the prior state. -/
theorem c9_counterexample :
    (init_config_raw_override rawPrior
        [("BTC", ⟨none, some (.str "feedX")⟩)] []).2 = true
    ∧ (init_config_raw_override rawPrior
        [("BTC", ⟨none, some (.str "feedX")⟩)] []).1.conversionRequired
        ≠ rawPrior.conversionRequired
    ∧ (init_config_raw_override rawPrior
        [("BTC", ⟨none, some (.str "feedX")⟩)] []).1.exchangeRate
        = rawPrior.exchangeRate
    ∧ (init_config_raw_lists rawPrior []
        [[.str "USDT", .str "abc", .str "feedX"]]).2 = false
    ∧ (init_config_raw_lists rawPrior []
        [[.str "USDT", .str "abc", .str "feedX"]]).1.exchangeRate
        = [("USDT", .str "abc")] := by
  decide

/-- Witness for C9: a wrong-arity conversion row is rejected with the
whole prior state retained and the error logged. -/
theorem c9_witness :
    init_config_raw_lists rawPrior [] [[.str "USDT"]] = (rawPrior, true) :=
  c9_init_config_amended.1 rawPrior [] [[.str "USDT"]] (Or.inl (by decide))

end Erc
